/-
Verification of the MiaCat tray-pet animator (src/mia_cat.py) against its
natural-language specification.

Shallow embedding notes:
* Icon frames are represented by their resource-file paths (strings), so the
  six frame lists of RUNNING_ANIMALS_MAPPING are concrete string lists built
  exactly as the Python list comprehensions build them.
* Python float arithmetic in the delay formula is modelled over ℚ
  (exact rational arithmetic).
* Python exceptions (KeyError on dict subscript, NameError on an undefined
  module global, configparser errors, IndexError) are modelled with an
  explicit error type and Except.
* The scheduler state is the pair of attributes (running_animal,
  running_animal_icons) of the MiaCat object; menu callbacks run
  asynchronously and are modelled as a switch schedule interleaved with the
  frame loop.
-/
import Mathlib

namespace MiaCatModel

/-- Python errors that the modelled code paths can raise. -/
inductive PyError where
  | keyError
  | nameError
  | configError
  | indexError
deriving Repr, DecidableEq

deriving instance DecidableEq for Except

/-- Python dict subscript `d[k]`: the value if the key is present,
KeyError otherwise.  Dicts whose values we need are modelled as
association lists. -/
def dictGet {α : Type} (d : List (String × α)) (k : String) : Except PyError α :=
  match d.find? (fun kv => kv.1 == k) with
  | some kv => .ok kv.2
  | none => .error .keyError

/-- Reference to a module-level global that may be undefined on the current
platform (e.g. MAC_APP_PATH on Windows): NameError when absent. -/
def globalGet {α : Type} (o : Option α) : Except PyError α :=
  match o with
  | some v => .ok v
  | none => .error .nameError

/-- `RUNNING_ANIMALS_MAPPING`: the module-level dict of the six variants,
each mapped to the ordered list of frame images opened by the list
comprehensions `[Image.open(f"./res/cat/white_cat_{i}.png") for i in range(5)]`
etc.  Frames are represented by their file paths. -/
def RUNNING_ANIMALS_MAPPING : List (String × List String) :=
  [ ("white_cat", (List.range 5).map
      (fun i => "./res/cat/white_cat_" ++ toString i ++ ".png")),
    ("black_cat", (List.range 5).map
      (fun i => "./res/cat/black_cat_" ++ toString i ++ ".png")),
    ("white_horse", (List.range 14).map
      (fun i => "./res/horse/white_horse_" ++ toString i ++ ".png")),
    ("black_horse", (List.range 14).map
      (fun i => "./res/horse/black_horse_" ++ toString i ++ ".png")),
    ("white_parrot", (List.range 10).map
      (fun i => "./res/parrot/white_parrot_" ++ toString i ++ ".png")),
    ("black_parrot", (List.range 10).map
      (fun i => "./res/parrot/black_parrot_" ++ toString i ++ ".png")) ]

/-- The mutable scheduler state of a MiaCat object: the attributes
`self.running_animal` and `self.running_animal_icons`. -/
structure MiaCatState where
  running_animal : String
  running_animal_icons : List String
deriving Repr, DecidableEq

/-- `MiaCat.change_running_animal`: overwrites both attributes
(lines 160-162 of mia_cat.py). -/
def change_running_animal (_s : MiaCatState) (new_running_animal : String)
    (new_animal_icons : List String) : MiaCatState :=
  ⟨new_running_animal, new_animal_icons⟩

/-- `MiaCat.__init__` with a variant key: `self.running_animal = running_animal;
self.running_animal_icons = RUNNING_ANIMALS_MAPPING[running_animal]`
(lines 50-52); the dict subscript raises KeyError on an unknown key. -/
def miaCatInit (running_animal : String) : Except PyError MiaCatState :=
  match dictGet RUNNING_ANIMALS_MAPPING running_animal with
  | .error e => .error e
  | .ok icons => .ok ⟨running_animal, icons⟩

/-- Line 154: `sleep_duration = 0.01 / (cpu_percent / 100 + 0.1)`,
modelled over exact rationals. -/
def sleep_duration (cpu_percent : ℚ) : ℚ :=
  0.01 / (cpu_percent / 100 + 0.1)

/-- C1: The per-frame delay computed by the animation loop is
0.01 / (p/100 + 0.1); on [0,100] it is monotonically non-increasing in p,
equals 0.1 at p = 0, and is within 10⁻⁵ of 0.00909 at p = 100. -/
theorem delay_formula_properties :
    (∀ p q : ℚ, 0 ≤ p → p ≤ q → q ≤ 100 →
      sleep_duration q ≤ sleep_duration p) ∧
    sleep_duration 0 = 0.1 ∧
    |sleep_duration 100 - 0.00909| < 0.00001 := by
  refine ⟨?_, ?_, ?_⟩
  · intro p q hp hpq _
    unfold sleep_duration
    have hpos : (0 : ℚ) < p / 100 + 0.1 := by
      have : (0 : ℚ) ≤ p / 100 := by positivity
      norm_num
      linarith
    have hle : p / 100 + 0.1 ≤ q / 100 + 0.1 := by
      have : p / 100 ≤ q / 100 := by linarith
      linarith
    have h001 : (0 : ℚ) ≤ 0.01 := by norm_num
    exact div_le_div_of_nonneg_left h001 hpos hle
  · unfold sleep_duration; norm_num
  · unfold sleep_duration
    rw [abs_sub_lt_iff]
    norm_num

/-- Witness for C1 at concrete inputs p = 0, q = 100. -/
theorem delay_formula_properties_witness :
    sleep_duration 100 ≤ sleep_duration 0 :=
  delay_formula_properties.1 0 100 (by norm_num) (by norm_num) (by norm_num)

/-- The frame list stored in RUNNING_ANIMALS_MAPPING for a key, with `[]`
as default for keys outside the dict (only ever used at the six keys, where
it equals the Python dict entry). -/
def mappingIcons (k : String) : List String :=
  ((RUNNING_ANIMALS_MAPPING.find? (fun kv => kv.1 == k)).map
    (fun kv => kv.2)).getD []

/-- A switch schedule: for each frame position i of a pass, optionally a
`change_running_animal` menu-callback event that the UI thread delivers
while the loop sleeps before displaying frame i. -/
def SwitchSchedule : Type := Nat → Option (String × List String)

/-- One interleaving step: apply the switch event (if any) scheduled
before frame i. -/
def switchStep (sw : SwitchSchedule) (st : MiaCatState) (i : Nat) :
    MiaCatState :=
  match sw i with
  | none => st
  | some p => change_running_animal st p.1 p.2

/-- The scheduler state after the switch events scheduled before frames
0 .. i-1 have been delivered. -/
def stateAfterSwitches (s : MiaCatState) (sw : SwitchSchedule) (i : Nat) :
    MiaCatState :=
  (List.range i).foldl (switchStep sw) s

/-- One pass of the frame loop in `MiaCat.run_animal` (lines 156-158):
`for animal_icon in self.running_animal_icons: await asyncio.sleep(d);
self.mia_cat.icon = animal_icon`.  Python evaluates
`self.running_animal_icons` once when the `for` statement starts and
iterates over that list object; `change_running_animal` rebinds the
attribute to a different list and never mutates the old one, so the frames
displayed during the pass are exactly the elements of the list captured at
the start of the pass, regardless of switch events delivered meanwhile.
Returns the displayed frames in order, and the state after the pass. -/
def runAnimalPass (s : MiaCatState) (sw : SwitchSchedule) :
    List String × MiaCatState :=
  let captured := s.running_animal_icons
  (captured, stateAfterSwitches s sw captured.length)

/-- The proposition the spec asserts for C2: the frame list of the
currently selected variant is re-read at the top of every per-frame
iteration, i.e. every displayed frame is an element of the frame list that
is current at the moment it is displayed. -/
def perFrameRereadProp : Prop :=
  ∀ (s : MiaCatState) (sw : SwitchSchedule) (i : Nat) (frame : String),
    (runAnimalPass s sw).1[i]? = some frame →
    frame ∈ (stateAfterSwitches s sw (i + 1)).running_animal_icons

/-- A concrete schedule: a switch to black_cat delivered before frame 1. -/
def switchAtOneToBlackCat : SwitchSchedule :=
  fun i => if i = 1 then some ("black_cat", mappingIcons "black_cat")
           else none

/-- Counterexample for C2: starting a pass on white_cat with a switch to
black_cat delivered before frame 1, the loop still displays
white_cat frame 1, which is not in the black_cat frame list: the frame list
is captured at the start of the pass, not re-read per frame. -/
theorem frame_list_reread_refuted : ¬ perFrameRereadProp := by
  intro h
  have hmem := h ⟨"white_cat", mappingIcons "white_cat"⟩
    switchAtOneToBlackCat 1 "./res/cat/white_cat_1.png" (by decide)
  revert hmem
  decide

lemma stateAfterSwitches_single (s : MiaCatState) (sw : SwitchSchedule)
    (j : Nat) (n : String) (ics : List String) (len : Nat)
    (hj : j < len) (hsw : sw j = some (n, ics))
    (honce : ∀ i, i ≠ j → sw i = none) :
    stateAfterSwitches s sw len = ⟨n, ics⟩ := by
  induction len with
  | zero => omega
  | succ m ih =>
    unfold stateAfterSwitches at ih ⊢
    rw [List.range_succ, List.foldl_append]
    by_cases hjm : j = m
    · subst hjm
      simp [switchStep, hsw, change_running_animal]
    · have hm : sw m = none := honce m (fun hc => hjm hc.symm)
      have hjm2 : j < m := by omega
      simp [switchStep, hm, ih hjm2]

/-- C2 (amended): the frame loop reads `self.running_animal_icons` once at
the start of each pass of `run_animal` (not at every per-frame iteration),
so the pass displays exactly the list captured at its start; since every
pass re-reads the attribute, a switch delivered during one pass takes
effect at the start of the next pass, i.e. within at most one outer
cycle. -/
theorem frame_list_read_once_per_pass (s : MiaCatState)
    (sw : SwitchSchedule) (j : Nat) (n : String) (ics : List String)
    (hj : j < s.running_animal_icons.length)
    (hsw : sw j = some (n, ics))
    (honce : ∀ i, i ≠ j → sw i = none) :
    (runAnimalPass s sw).1 = s.running_animal_icons ∧
    (runAnimalPass (runAnimalPass s sw).2 (fun _ => none)).1 = ics := by
  constructor
  · rfl
  · show ((runAnimalPass s sw).2).running_animal_icons = ics
    show (stateAfterSwitches s sw s.running_animal_icons.length
      |>.running_animal_icons) = ics
    rw [stateAfterSwitches_single s sw j n ics _ hj hsw honce]

/-- Witness for C2 (amended): white_cat pass with a switch to black_cat
before frame 1. -/
theorem frame_list_read_once_per_pass_witness :
    (runAnimalPass ⟨"white_cat", mappingIcons "white_cat"⟩
      switchAtOneToBlackCat).1 = mappingIcons "white_cat" ∧
    (runAnimalPass (runAnimalPass ⟨"white_cat", mappingIcons "white_cat"⟩
      switchAtOneToBlackCat).2 (fun _ => none)).1 =
      mappingIcons "black_cat" :=
  frame_list_read_once_per_pass ⟨"white_cat", mappingIcons "white_cat"⟩
    switchAtOneToBlackCat 1 "black_cat" (mappingIcons "black_cat")
    (by decide) (by decide)
    (fun i hi => if_neg hi)

/-- C3: when a switch to variant (n, ics) is delivered before frame j of a
pass over the list of the previous variant, at most the length of that list in frame
updates remain in the current pass, the entire next pass displays exactly
the frames of the new variant in order, and display of the new list begins at
its index 0. -/
theorem switch_takes_effect_next_pass (s : MiaCatState)
    (sw : SwitchSchedule) (j : Nat) (n : String) (ics : List String)
    (hj : j < s.running_animal_icons.length)
    (hsw : sw j = some (n, ics))
    (honce : ∀ i, i ≠ j → sw i = none) :
    ((runAnimalPass s sw).1.drop j).length ≤
      s.running_animal_icons.length ∧
    (runAnimalPass (runAnimalPass s sw).2 (fun _ => none)).1 = ics ∧
    (runAnimalPass (runAnimalPass s sw).2 (fun _ => none)).1[0]? =
      ics[0]? := by
  refine ⟨?_, ?_, ?_⟩
  · show (s.running_animal_icons.drop j).length ≤
      s.running_animal_icons.length
    simp
  · show (stateAfterSwitches s sw s.running_animal_icons.length
      |>.running_animal_icons) = ics
    rw [stateAfterSwitches_single s sw j n ics _ hj hsw honce]
  · show (stateAfterSwitches s sw s.running_animal_icons.length
      |>.running_animal_icons)[0]? = ics[0]?
    rw [stateAfterSwitches_single s sw j n ics _ hj hsw honce]

/-- Witness for C3: white_cat pass with a switch to black_cat before
frame 1. -/
theorem switch_takes_effect_next_pass_witness :
    ((runAnimalPass ⟨"white_cat", mappingIcons "white_cat"⟩
      switchAtOneToBlackCat).1.drop 1).length ≤
      (mappingIcons "white_cat").length ∧
    (runAnimalPass (runAnimalPass ⟨"white_cat", mappingIcons "white_cat"⟩
      switchAtOneToBlackCat).2 (fun _ => none)).1 =
      mappingIcons "black_cat" ∧
    (runAnimalPass (runAnimalPass ⟨"white_cat", mappingIcons "white_cat"⟩
      switchAtOneToBlackCat).2 (fun _ => none)).1[0]? =
      (mappingIcons "black_cat")[0]? :=
  switch_takes_effect_next_pass ⟨"white_cat", mappingIcons "white_cat"⟩
    switchAtOneToBlackCat 1 "black_cat" (mappingIcons "black_cat")
    (by decide) (by decide)
    (fun i hi => if_neg hi)

/-- C8: for each of the six variants the loaded frame list has exactly its
declared length (5 for cats, 14 for horses, 10 for parrots), and one pass
of the animation loop displays the loaded frames in exactly the loaded
order, with no reordering. -/
theorem variant_frame_counts_and_order :
    ∀ p ∈ RUNNING_ANIMALS_MAPPING,
      p.2.length = (if p.1 = "white_cat" ∨ p.1 = "black_cat" then 5
        else if p.1 = "white_horse" ∨ p.1 = "black_horse" then 14
        else 10) ∧
      (runAnimalPass ⟨p.1, p.2⟩ (fun _ => none)).1 = p.2 := by
  intro p hp
  fin_cases hp <;> exact ⟨by decide, rfl⟩

/-- Witness for C8 at the white_cat entry. -/
theorem variant_frame_counts_and_order_witness :
    ("white_cat", mappingIcons "white_cat").2.length =
      (if ("white_cat" : String) = "white_cat" ∨
          ("white_cat" : String) = "black_cat" then 5
       else if ("white_cat" : String) = "white_horse" ∨
          ("white_cat" : String) = "black_horse" then 14
       else 10) ∧
    (runAnimalPass ⟨"white_cat", mappingIcons "white_cat"⟩
      (fun _ => none)).1 = mappingIcons "white_cat" :=
  variant_frame_counts_and_order ("white_cat", mappingIcons "white_cat")
    (by decide)

/-- The platform-dependent module globals (lines 16-18 and 35-46): exactly
one of WINDOWS_APP_PATH / MAC_APP_PATH is defined, chosen by IS_WINDOWS.
Table values are Option String because `utils.find_*_abspath` may return
None when the application is not installed. -/
structure Env where
  IS_WINDOWS : Bool
  WINDOWS_APP_PATH : Option (List (String × Option String))
  MAC_APP_PATH : Option (List (String × Option String))
deriving Repr, DecidableEq

/-- The module-level conditional of lines 35-46: on Windows only
WINDOWS_APP_PATH is defined, otherwise only MAC_APP_PATH. -/
def moduleEnv (isWin : Bool) (winTable macTable : List (String × Option String)) : Env :=
  if isWin then ⟨true, some winTable, none⟩ else ⟨false, none, some macTable⟩

/-- Python str() of an Optional path, as interpolated into the f-string of
line 178 (`None` prints as "None"). -/
def pyShow : Option String → String
  | none => "None"
  | some p => p

/-- The log message of line 171. -/
def no_path_msg (app_name : String) : String :=
  "Application name \"" ++ app_name ++ "\" is called, but could not find path"

/-- The log message of line 178. -/
def fail_msg (mac_path : Option String) (return_code : Int) : String :=
  "Application " ++ pyShow mac_path ++ " failed to start with return code "
    ++ toString return_code ++ "."

/-- The observable outcome of one `launch_app` call: whether it returned
normally or raised, the error-log lines emitted, the argv of each process
spawn attempted, and whether it waited on a spawned process. -/
structure LaunchOutcome where
  result : Except PyError Unit
  errorLogs : List String
  spawned : List (List String)
  waited : Bool
deriving Repr, DecidableEq

/-- `MiaCat.launch_app` (lines 164-178), line by line:
`app_path = WINDOWS_APP_PATH[app_name]` or `MAC_APP_PATH[app_name]`
depending on IS_WINDOWS (NameError if the global is undefined, KeyError if
the key is absent); if `app_path is None`, log once and return; otherwise
`proc = subprocess.Popen(["open", "-a", app_path]); return_code =
proc.wait()`; if the return code is non-zero, the f-string of line 178
evaluates `MAC_APP_PATH[app_name]` (NameError on Windows) and the message
is logged.  `rc` is the exit status of the spawned process, an input of the
model. -/
def launch_app (env : Env) (app_name : String) (rc : Int) : LaunchOutcome :=
  let pathLookup : Except PyError (Option String) :=
    if env.IS_WINDOWS then
      match globalGet env.WINDOWS_APP_PATH with
      | .error e => .error e
      | .ok t => dictGet t app_name
    else
      match globalGet env.MAC_APP_PATH with
      | .error e => .error e
      | .ok t => dictGet t app_name
  match pathLookup with
  | .error e => ⟨.error e, [], [], false⟩
  | .ok none => ⟨.ok (), [no_path_msg app_name], [], false⟩
  | .ok (some app_path) =>
    let argv := ["open", "-a", app_path]
    let return_code := rc
    if return_code ≠ 0 then
      match globalGet env.MAC_APP_PATH with
      | .error e => ⟨.error e, [], [argv], true⟩
      | .ok t =>
        match dictGet t app_name with
        | .error e => ⟨.error e, [], [argv], true⟩
        | .ok mp => ⟨.ok (), [fail_msg mp return_code], [argv], true⟩
    else ⟨.ok (), [], [argv], true⟩

/-- `launch_app` as a method on the MiaCat object: its body contains no
assignment to any attribute, so the scheduler state passes through
unchanged. -/
def launch_app_method (s : MiaCatState) (env : Env) (app_name : String)
    (rc : Int) : LaunchOutcome × MiaCatState :=
  (launch_app env app_name rc, s)

/-- C4: calling launch_app with an app name whose resolved path is None
produces exactly one error-log entry, attempts no process spawn, returns
normally, and leaves the scheduler state unchanged. -/
theorem launch_missing_path_logs_once (s : MiaCatState) (env : Env)
    (table : List (String × Option String)) (app_name : String) (rc : Int)
    (htab : (if env.IS_WINDOWS then env.WINDOWS_APP_PATH
             else env.MAC_APP_PATH) = some table)
    (hpath : dictGet table app_name = .ok none) :
    launch_app_method s env app_name rc =
      (⟨.ok (), [no_path_msg app_name], [], false⟩, s) := by
  unfold launch_app_method launch_app
  by_cases hw : env.IS_WINDOWS <;>
    simp [hw] at htab ⊢ <;> simp [htab, globalGet, hpath]

/-- Witness for C4: a Mac environment where chrome resolves to None. -/
theorem launch_missing_path_logs_once_witness :
    launch_app_method ⟨"white_cat", mappingIcons "white_cat"⟩
      (moduleEnv false [] [("chrome", none)]) "chrome" 0 =
      (⟨.ok (), [no_path_msg "chrome"], [], false⟩,
       ⟨"white_cat", mappingIcons "white_cat"⟩) :=
  launch_missing_path_logs_once ⟨"white_cat", mappingIcons "white_cat"⟩
    (moduleEnv false [] [("chrome", none)]) [("chrome", none)] "chrome" 0
    (by decide) (by decide)

/-- The proposition the spec asserts for C5: launch_app is fire-and-forget,
i.e. whenever it spawns a process it does not wait on it afterwards. -/
def fireAndForgetProp : Prop :=
  ∀ (env : Env) (app_name : String) (rc : Int),
    (launch_app env app_name rc).spawned = [] ∨
    (launch_app env app_name rc).waited = false

/-- Counterexample for C5: with chrome resolved on a Mac environment,
launch_app spawns ["open", "-a", path] and then waits on the spawned
process (`return_code = proc.wait()`, line 175), so it is not
fire-and-forget as stated. -/
theorem launch_fire_and_forget_refuted : ¬ fireAndForgetProp := by
  intro h
  have hc := h (moduleEnv false []
    [("chrome", some "/Applications/Google Chrome.app")]) "chrome" 0
  revert hc
  decide

/-- C5 (amended): launch_app spawns the resolved application via the
`open` helper as a child process and waits for that child to exit,
logging an error exactly when its return code is non-zero; beyond that
single wait-and-log it takes no further action: it returns normally and
the scheduler state is unchanged. -/
theorem launch_spawns_and_waits (s : MiaCatState)
    (winTable macTable : List (String × Option String))
    (app_name path : String) (rc : Int)
    (hget : dictGet macTable app_name = .ok (some path)) :
    launch_app_method s (moduleEnv false winTable macTable) app_name rc =
      (⟨.ok (),
        if rc = 0 then [] else [fail_msg (some path) rc],
        [["open", "-a", path]], true⟩, s) := by
  unfold launch_app_method launch_app moduleEnv
  simp [globalGet, hget]
  by_cases hrc : rc = 0 <;> simp [hrc, hget]

/-- Witness for C5 (amended): chrome resolved on Mac, exit status 1. -/
theorem launch_spawns_and_waits_witness :
    launch_app_method ⟨"white_cat", mappingIcons "white_cat"⟩
      (moduleEnv false [] [("chrome", some "/Applications/Google Chrome.app")])
      "chrome" 1 =
      (⟨.ok (),
        if (1 : Int) = 0 then []
        else [fail_msg (some "/Applications/Google Chrome.app") 1],
        [["open", "-a", "/Applications/Google Chrome.app"]], true⟩,
       ⟨"white_cat", mappingIcons "white_cat"⟩) :=
  launch_spawns_and_waits ⟨"white_cat", mappingIcons "white_cat"⟩
    [] [("chrome", some "/Applications/Google Chrome.app")]
    "chrome" "/Applications/Google Chrome.app" 1 (by decide)

/-- C10: on Windows, when the spawned process exits non-zero, the
error-logging f-string of line 178 reads MAC_APP_PATH, which the module
conditional only defines on non-Windows platforms, so launch_app raises
NameError instead of logging: no log line is emitted and the call does not
return normally. -/
theorem windows_nonzero_exit_raises (winTable : List (String × Option String))
    (macTable : List (String × Option String))
    (app_name path : String) (rc : Int)
    (hget : dictGet winTable app_name = .ok (some path))
    (hrc : rc ≠ 0) :
    launch_app (moduleEnv true winTable macTable) app_name rc =
      ⟨.error .nameError, [], [["open", "-a", path]], true⟩ := by
  unfold launch_app moduleEnv
  simp [globalGet, hget, hrc]

/-- Witness for C10: chrome resolved on Windows, exit status 1. -/
theorem windows_nonzero_exit_raises_witness :
    launch_app (moduleEnv true
      [("chrome", some "C:\\Program Files\\chrome.exe")] []) "chrome" 1 =
      ⟨.error .nameError, [],
       [["open", "-a", "C:\\Program Files\\chrome.exe"]], true⟩ :=
  windows_nonzero_exit_raises
    [("chrome", some "C:\\Program Files\\chrome.exe")] []
    "chrome" "C:\\Program Files\\chrome.exe" 1 (by decide) (by decide)

/-- Modelled from the spec: the Settings Store collaborator — the Python
configparser module over `./ini/settings.ini`, whose implementation is not part of
the sources of this repository — holds a flat key-value mapping from
(section, option) to a string value; writing the file and re-reading it
preserves the stored mapping. -/
def SettingsFile : Type := List ((String × String) × String)

/-- Modelled from the spec: `config.set(sec, opt, val)` followed by
`config.write` overwrites the single stored key in the file. -/
def config_set (f : SettingsFile) (sec opt val : String) : SettingsFile :=
  ((sec, opt), val) :: f.filter (fun kv => kv.1 != (sec, opt))

/-- Modelled from the spec: `config.read` followed by
`config.get(sec, opt)` yields the stored value, and raises a configparser
error (NoSectionError/NoOptionError) when the entry is missing. -/
def config_get (f : SettingsFile) (sec opt : String) :
    Except PyError String :=
  match f.find? (fun kv => kv.1 == (sec, opt)) with
  | some kv => .ok kv.2
  | none => .error .configError

/-- The settings-persistence part of `MiaCat.stop_mia_cat`
(lines 138-140): `config.set("animal", "run_animal", self.running_animal)`
then write the file.  (Stopping the asyncio loop and tray icon are GUI
side effects outside the model.) -/
def stop_mia_cat_settings (s : MiaCatState) (f : SettingsFile) :
    SettingsFile :=
  config_set f "animal" "run_animal" s.running_animal

/-- The `__main__` startup sequence (lines 200-211) together with
`MiaCat.__init__` (lines 50-61): read the settings file, get
`run_animal = config.get("animal", "run_animal")`, construct the MiaCat
object, whose initial tray icon is `self.running_animal_icons[0]`
(line 59). -/
def mainStartup (f : SettingsFile) :
    Except PyError (MiaCatState × String) :=
  match config_get f "animal" "run_animal" with
  | .error e => .error e
  | .ok run_animal =>
    match miaCatInit run_animal with
    | .error e => .error e
    | .ok s =>
      match s.running_animal_icons[0]? with
      | none => .error .indexError
      | some icon0 => .ok (s, icon0)

lemma config_get_set (f : SettingsFile) (sec opt val : String) :
    config_get (config_set f sec opt val) sec opt = .ok val := by
  simp [config_get, config_set, List.find?]

lemma mapping_icons_nonempty (k : String) (icons : List String)
    (h : dictGet RUNNING_ANIMALS_MAPPING k = .ok icons) :
    icons[0]?.isSome := by
  unfold dictGet at h
  cases hf : RUNNING_ANIMALS_MAPPING.find? (fun kv => kv.1 == k) with
  | none => rw [hf] at h; exact absurd h (by simp)
  | some kv =>
    rw [hf] at h
    simp only [Except.ok.injEq] at h
    subst h
    have hmem := List.mem_of_find?_eq_some hf
    fin_cases hmem <;> decide

/-- C6: if variant X is current at shutdown, stop_mia_cat writes it to the
settings file, and a subsequent startup loads X and displays frame 0 of
the frame sequence of X as the initial tray icon. -/
theorem settings_round_trip (s : MiaCatState) (f : SettingsFile)
    (icons : List String)
    (h : dictGet RUNNING_ANIMALS_MAPPING s.running_animal = .ok icons) :
    ∃ icon0, mainStartup (stop_mia_cat_settings s f) =
      .ok (⟨s.running_animal, icons⟩, icon0) ∧ icons[0]? = some icon0 := by
  have hne := mapping_icons_nonempty _ _ h
  obtain ⟨icon0, hi⟩ := Option.isSome_iff_exists.mp hne
  refine ⟨icon0, ?_, hi⟩
  simp only [mainStartup, stop_mia_cat_settings, config_get_set,
    miaCatInit, h, hi]

/-- Witness for C6: white_cat current at shutdown, empty settings file. -/
theorem settings_round_trip_witness :
    ∃ icon0,
      mainStartup (stop_mia_cat_settings
        ⟨"white_cat", mappingIcons "white_cat"⟩ []) =
        .ok (⟨"white_cat", mappingIcons "white_cat"⟩, icon0) ∧
      (mappingIcons "white_cat")[0]? = some icon0 :=
  settings_round_trip ⟨"white_cat", mappingIcons "white_cat"⟩ []
    (mappingIcons "white_cat") (by decide)

/-- The six known variant keys of RUNNING_ANIMALS_MAPPING. -/
def variantKeys : List String :=
  RUNNING_ANIMALS_MAPPING.map (fun kv => kv.1)

lemma dictGet_not_mem (v : String) (hv : v ∉ variantKeys) :
    dictGet RUNNING_ANIMALS_MAPPING v = .error .keyError := by
  unfold dictGet
  rw [List.find?_eq_none.mpr ?_]
  intro kv hkv
  simp only [beq_iff_eq]
  intro hc
  exact hv (by rw [← hc]; exact List.mem_map_of_mem _ hkv)

/-- C7: if the settings entry read at startup is missing, or holds a value
that is not one of the six known variant keys, startup raises an uncaught
error (a configparser error, or a KeyError from the dict subscript in
__init__): no validation, default, or fallback is applied. -/
theorem startup_crash_on_bad_settings (f : SettingsFile)
    (h : config_get f "animal" "run_animal" = .error .configError ∨
      ∃ v, config_get f "animal" "run_animal" = .ok v ∧
        v ∉ variantKeys) :
    mainStartup f = .error .configError ∨
    mainStartup f = .error .keyError := by
  rcases h with h | ⟨v, hv, hnv⟩
  · left; unfold mainStartup; rw [h]
  · right
    simp only [mainStartup, hv, miaCatInit, dictGet_not_mem v hnv]

/-- Witness for C7: the empty settings file has no entry, so startup
crashes with the configparser error. -/
theorem startup_crash_on_bad_settings_witness :
    mainStartup [] = .error .configError ∨
    mainStartup [] = .error .keyError :=
  startup_crash_on_bad_settings [] (Or.inl (by decide))

/-- The six change-animal menu callbacks installed by `make_menu`
(lines 63-103): each one calls `change_running_animal` with a variant key
and the entry of that key in RUNNING_ANIMALS_MAPPING. -/
def menu_change_callbacks : List (MiaCatState → MiaCatState) :=
  [ fun s => change_running_animal s "white_cat" (mappingIcons "white_cat"),
    fun s => change_running_animal s "black_cat" (mappingIcons "black_cat"),
    fun s => change_running_animal s "white_horse" (mappingIcons "white_horse"),
    fun s => change_running_animal s "black_horse" (mappingIcons "black_horse"),
    fun s => change_running_animal s "white_parrot" (mappingIcons "white_parrot"),
    fun s => change_running_animal s "black_parrot" (mappingIcons "black_parrot") ]

/-- The invariant of C9: the stored variant name and the stored frame list
agree, i.e. the frame list is exactly the entry of that name in
RUNNING_ANIMALS_MAPPING. -/
def stateConsistent (s : MiaCatState) : Prop :=
  dictGet RUNNING_ANIMALS_MAPPING s.running_animal =
    .ok s.running_animal_icons

lemma callbacks_preserve_consistent (c : MiaCatState → MiaCatState)
    (hc : c ∈ menu_change_callbacks) (s : MiaCatState) :
    stateConsistent (c s) := by
  fin_cases hc <;> simp only [stateConsistent, change_running_animal] <;>
    decide

lemma foldl_callbacks_consistent (cbs : List (MiaCatState → MiaCatState))
    (hcbs : ∀ c ∈ cbs, c ∈ menu_change_callbacks) :
    ∀ s0, stateConsistent s0 →
      stateConsistent (cbs.foldl (fun s c => c s) s0) := by
  induction cbs with
  | nil => intro s0 h; exact h
  | cons c cs ih =>
    intro s0 _
    simp only [List.foldl_cons]
    exact ih (fun d hd => hcbs d (List.mem_cons_of_mem c hd)) (c s0)
      (callbacks_preserve_consistent c (hcbs c (List.mem_cons_self c cs)) s0)

/-- C9: after construction from a known variant key and after any sequence
of the menu-provided change-animal callbacks, the stored variant name and
the displayed frame list never disagree: self.running_animal_icons is
exactly RUNNING_ANIMALS_MAPPING[self.running_animal]. -/
theorem variant_icons_invariant (k : String) (s0 : MiaCatState)
    (h0 : miaCatInit k = .ok s0)
    (cbs : List (MiaCatState → MiaCatState))
    (hcbs : ∀ c ∈ cbs, c ∈ menu_change_callbacks) :
    stateConsistent (cbs.foldl (fun s c => c s) s0) := by
  have hs0 : stateConsistent s0 := by
    unfold miaCatInit at h0
    cases hd : dictGet RUNNING_ANIMALS_MAPPING k with
    | error e => rw [hd] at h0; exact absurd h0 (by simp)
    | ok icons =>
      rw [hd] at h0
      simp only [Except.ok.injEq] at h0
      rw [← h0]
      exact hd
  exact foldl_callbacks_consistent cbs hcbs s0 hs0

/-- Witness for C9: construct from white_cat, then switch to black_horse
via its menu callback. -/
theorem variant_icons_invariant_witness :
    stateConsistent
      (([fun s => change_running_animal s "black_horse"
          (mappingIcons "black_horse")] :
        List (MiaCatState → MiaCatState)).foldl (fun s c => c s)
        ⟨"white_cat", mappingIcons "white_cat"⟩) :=
  variant_icons_invariant "white_cat"
    ⟨"white_cat", mappingIcons "white_cat"⟩ (by decide)
    [fun s => change_running_animal s "black_horse"
      (mappingIcons "black_horse")]
    (by
      intro c hc
      rw [List.mem_singleton.mp hc]
      unfold menu_change_callbacks
      exact List.mem_cons_of_mem _ (List.mem_cons_of_mem _
        (List.mem_cons_of_mem _ (List.mem_cons_self _ _))))

end MiaCatModel
